import Mathlib

/-!
Verification of the resumable sequential job orchestrator of the
automacao_cancelamento_portoseguro repository.

The embedding translates the TypeScript sources into pure Lean definitions:

* `src/types/index.ts` — record and status data model;
* `src/playwright/fluxo.ts` — `processarRegistro`, the bounded retry loop
  around one item attempt (the external actor's outcome for each attempt is a
  parameter `att : Nat → Except String String`, attempt numbers starting at 1);
* `status.service.ts` — the in-memory progress publisher (`updateProgress`,
  `addLog`, `getLogs`);
* `database.service.ts` — the checkpoint store, modelled as the fold of the
  emitted write events over a session row and a records table;
* `automacao.service.ts` — `processarRegistros`, the orchestrator loop,
  modelled as a trace-producing function.  The sources of asynchrony are
  explicit parameters: pause/stop requests become a `BoundaryCtl` signal read
  at each item boundary (pause and stop take effect only at item boundaries in
  the source), and checkpoint-write failures become an `Option Nat` oracle
  naming the single write attempt that rejects;
* `index.ts` — the `/api/retomar/:id` and `/api/executar` handlers.

JavaScript numbers that hold counters and indices are modelled as `Nat`
(they are only incremented or assigned from other counters); the configured
`maxRetries` comes from `parseInt` and may be negative, so it is an `Int`.
-/

namespace PortoCancel

/-! ### Data model (`src/types/index.ts`, `database.service.ts`) -/

/-- Per-record status: `"pendente" | "processando" | "cancelado" | "erro"`. -/
inductive RecStatus
  | pendente
  | processando
  | cancelado
  | erro
deriving DecidableEq

/-- One input record.  The orchestrator only reads and writes `status` and
`observacao`; the remaining spreadsheet columns (parcela, proposta, valor,
vigencia, cnpjCpf, nome) are opaque payload carried unchanged, so they are not
modelled. `apolice` is kept as the record's identity. -/
structure PolicyRecord where
  apolice : String
  status : RecStatus
  observacao : String
deriving DecidableEq

/-- Session lifecycle status:
`"running" | "completed" | "paused" | "stopped" | "error"`. -/
inductive SessStatus
  | running
  | completed
  | paused
  | stopped
  | error
deriving DecidableEq

/-- The `AutomationResult` of `fluxo.ts`. -/
structure AutomationResult where
  success : Bool
  message : String
deriving DecidableEq

/-! ### Retry controller (`src/playwright/fluxo.ts`, `processarRegistro`) -/

/-- The `for (let attempt = 1; attempt <= maxRetries; attempt++)` loop of
`processarRegistro`.  `att k` is the outcome of `cancelarApolice` on attempt
`k` (a thrown error and a returned `{success:false}` both surface as
`Except.error` with the message, exactly as the source converts both into
`lastError`).  `rem` is the number of attempts still allowed; the second
component of the result is the number of attempts performed (the loop exits at
`attempt = maxRetries + 1`, having performed `attempt - 1` attempts). -/
def runAttempts (att : Nat → Except String String) :
    Nat → Nat → Option String → AutomationResult × Nat
  | attempt, 0, lastError =>
      ({ success := false, message := lastError.getD "Erro desconhecido" }, attempt - 1)
  | attempt, rem + 1, _ =>
      match att attempt with
      | .ok msg => ({ success := true, message := msg }, attempt)
      | .error e => runAttempts att (attempt + 1) rem (some e)

/-- Source `processarRegistro(page, record, statusService, maxRetries)`: runs the
attempt loop starting at attempt 1 with `lastError = null`. A non-positive
`maxRetries` means the loop body never runs (`Int.toNat` clamps to 0). -/
def processarRegistro (att : Nat → Except String String) (maxRetries : Int) :
    AutomationResult × Nat :=
  runAttempts att 1 maxRetries.toNat none

/-! ### Progress publisher (`status.service.ts`) -/

/-- The `ProcessStatus` snapshot held by `StatusService`. -/
structure ProcessStatus where
  isProcessing : Bool
  isPaused : Bool
  currentIndex : Nat
  total : Nat
  cancelados : Nat
  erros : Nat
  progress : Nat
deriving DecidableEq

/-- JavaScript `Math.round(((index + 1) / total) * 100)` for natural arguments: rounding
half-up of the exact rational `100 * (index+1) / total`, i.e.
`⌊(200*(index+1) + total) / (2*total)⌋`. -/
def roundPct (index total : Nat) : Nat :=
  (200 * (index + 1) + total) / (2 * total)

/-- Source `StatusService.updateProgress(index, cancelados, erros)`; the only place
the `progress` percentage is computed. -/
def ProcessStatus.updateProgress (st : ProcessStatus) (index cancelados erros : Nat) :
    ProcessStatus :=
  { st with
      currentIndex := index
      cancelados := cancelados
      erros := erros
      progress := if 0 < st.total then roundPct index st.total else 0 }

/-- Log severity `"success" | "error" | "info"`. -/
inductive LogType
  | success
  | error
  | info
deriving DecidableEq

/-- One log line.  The source also stamps an id (`Date.now()-Math.random()`)
and a locale time string; those runtime artifacts are carried as opaque
strings supplied by the caller. -/
structure LogEntry where
  id : String
  type : LogType
  message : String
  timestamp : String
deriving DecidableEq

/-- Source `StatusService.addLog`: prepend the entry, then keep only the first 100
(`this.logs = this.logs.slice(0, 100)` when the length exceeds 100). -/
def addLog (logs : List LogEntry) (l : LogEntry) : List LogEntry :=
  let logs' := l :: logs
  if logs'.length > 100 then logs'.take 100 else logs'

/-- Source `StatusService.getLogs`: returns a copy of the buffer (`[...this.logs]`),
identical as a value. -/
def getLogs (logs : List LogEntry) : List LogEntry := logs

/-! ### Checkpoint store as an event fold (`database.service.ts`) -/

/-- The externally visible effects of one run, in order.  `publish` is a
`statusService.updateProgress` call (which emits a `status` event to all
subscribers); the other constructors are the `DatabaseService` writes;
`attemptCall` marks one `cancelarApolice` invocation for an item. -/
inductive Event
  | publish (currentIndex cancelados erros : Nat)
  | createSession (records : List PolicyRecord)
  | saveRecords (records : List PolicyRecord)
  | updateSession (processed cancelados erros : Nat) (status : Option SessStatus)
  | finishSession (status : SessStatus)
  | attemptCall (itemIndex attemptNo : Nat)
deriving DecidableEq

/-- The session row of `execution_sessions` (timestamps omitted; `hasEndDate`
records whether `finishSession` set `endDate`). -/
structure SessionRow where
  status : SessStatus
  processedRecords : Nat
  canceledRecords : Nat
  errorRecords : Nat
  hasEndDate : Bool
deriving DecidableEq

/-- Row created by `createSession`: status `running`, all counters 0. -/
def initialRow : SessionRow :=
  { status := .running, processedRecords := 0, canceledRecords := 0,
    errorRecords := 0, hasEndDate := false }

/-- Effect of one successful write on the persisted state
(session row, records table). -/
def applyEvent (db : SessionRow × List PolicyRecord) : Event → SessionRow × List PolicyRecord
  | .createSession recs => (initialRow, recs)
  | .saveRecords recs => (db.1, recs)
  | .updateSession p c e st? =>
      ({ db.1 with
          processedRecords := p, canceledRecords := c, errorRecords := e,
          status := st?.getD db.1.status }, db.2)
  | .finishSession st => ({ db.1 with status := st, hasEndDate := true }, db.2)
  | _ => db

/-- Persisted state after a trace of events. -/
def runDb (tr : List Event) : SessionRow × List PolicyRecord :=
  tr.foldl applyEvent (initialRow, [])

/-- The `(processed, canceled, errors)` counter triples of the checkpoint
writes of a trace, in write order (the `createSession` insert starts all
counters at 0). -/
def checkpointCounters (tr : List Event) : List (Nat × Nat × Nat) :=
  tr.filterMap fun ev =>
    match ev with
    | .createSession _ => some (0, 0, 0)
    | .updateSession p c e _ => some (p, c, e)
    | _ => none

/-- Indices (into the record list given to `processarRegistros`) of the items
on which the external actor was invoked, one entry per attempt. -/
def attemptedItems (tr : List Event) : List Nat :=
  tr.filterMap fun ev =>
    match ev with
    | .attemptCall i _ => some i
    | _ => none

/-! ### Orchestrator loop (`automacao.service.ts`, `processarRegistros`) -/

/-- Control activity visible at the boundary of one item, combining the
`statusService.isPaused()` / `this.isRunning` reads with the `stop()` call
that flipped the flag.  Pause and stop take effect only at item boundaries in
the source; a request arriving mid-item is observed at the next boundary. -/
inductive BoundaryCtl
  | go
  | stop
  | pauseResume
  | pauseStop
deriving DecidableEq

/-- What the boundary decided: continue into the item, leave the loop
(`break`), or propagate a rejected write. -/
inductive BAct
  | cont
  | brk
  | abort
deriving DecidableEq

/-- Events emitted at a boundary plus the advanced write counter. -/
structure BoundRes where
  evs : List Event
  w : Nat
  act : BAct
deriving DecidableEq

/-- Lines 526-565 of the orchestrator: the pause branch (persist `paused`,
wait, then either persist `running` and continue, or break when stopped) and
the stop check.  `dbF = some k` means the `k`-th checkpoint write attempt of
the run rejects.  The writes of the pause branch are not wrapped in
try/catch, so their rejection aborts the run; the writes performed by
`stop()` itself carry `.catch(() => {})`, so their rejection only loses the
write.  `stop()` while running calls `finishSession(sessionId, "stopped")`;
`stop()` while paused calls `updateSessionProgress(sessionId, 0, 0, 0,
"paused")`. -/
def boundaryStep (dbF : Option Nat) (ctl : BoundaryCtl) (i c e : Nat)
    (recs : List PolicyRecord) (w : Nat) : BoundRes :=
  match ctl with
  | .go => ⟨[], w, .cont⟩
  | .stop =>
      if dbF = some w then ⟨[], w + 1, .brk⟩
      else ⟨[.finishSession .stopped], w + 1, .brk⟩
  | .pauseResume =>
      if dbF = some w then ⟨[], w + 1, .abort⟩
      else if dbF = some (w + 1) then
        ⟨[.updateSession i c e (some .paused)], w + 2, .abort⟩
      else if dbF = some (w + 2) then
        ⟨[.updateSession i c e (some .paused), .saveRecords recs], w + 3, .abort⟩
      else
        ⟨[.updateSession i c e (some .paused), .saveRecords recs,
          .updateSession i c e (some .running)], w + 3, .cont⟩
  | .pauseStop =>
      if dbF = some w then ⟨[], w + 1, .abort⟩
      else if dbF = some (w + 1) then
        ⟨[.updateSession i c e (some .paused)], w + 2, .abort⟩
      else if dbF = some (w + 2) then
        ⟨[.updateSession i c e (some .paused), .saveRecords recs], w + 3, .brk⟩
      else
        ⟨[.updateSession i c e (some .paused), .saveRecords recs,
          .updateSession 0 0 0 (some .paused)], w + 3, .brk⟩

/-- Lines 594-602: write the outcome into the record (`cancelado` on success,
`erro` on failure, `observacao := result.message` either way). -/
def applyResult (r : PolicyRecord) (res : AutomationResult) : PolicyRecord :=
  if res.success then { r with status := .cancelado, observacao := res.message }
  else { r with status := .erro, observacao := res.message }

/-- Assignment `records[i].status = s` (out-of-range writes cannot occur in the loop and
leave the list unchanged). -/
def setStatus (recs : List PolicyRecord) (i : Nat) (s : RecStatus) : List PolicyRecord :=
  match recs.get? i with
  | some r => recs.set i { r with status := s }
  | none => recs

/-- Assignment `records[i] := applyResult records[i] res`. -/
def setResult (recs : List PolicyRecord) (i : Nat) (res : AutomationResult) :
    List PolicyRecord :=
  match recs.get? i with
  | some r => recs.set i (applyResult r res)
  | none => recs

/-- One `attemptCall` marker per attempt performed on item `i`. -/
def attemptEvents (i n : Nat) : List Event :=
  (List.range n).map fun k => .attemptCall i (k + 1)

/-- Result of one loop iteration. -/
structure IterRes where
  evs : List Event
  recs : List PolicyRecord
  c : Nat
  e : Nat
  w : Nat
  aborted : Bool
  next : Bool
deriving DecidableEq

/-- One iteration of the `for (let i = startIndex; ...)` loop, lines 525-618:
boundary checks, then mark the item `processando`, publish, checkpoint,
run the retry controller, apply the outcome, publish, checkpoint.  The four
checkpoint writes of the item body are not wrapped in try/catch, so a
rejection aborts (`aborted := true`, `next := false`). -/
def iterStep (att : Nat → Except String String) (mr : Int) (dbF : Option Nat)
    (ctl : BoundaryCtl) (i : Nat) (recs : List PolicyRecord) (c e w : Nat) : IterRes :=
  let b := boundaryStep dbF ctl i c e recs w
  if b.act = .abort then ⟨b.evs, recs, c, e, b.w, true, false⟩
  else if b.act = .brk then ⟨b.evs, recs, c, e, b.w, false, false⟩
  else
      let w := b.w
      let recs0 := setStatus recs i .processando
      let pre := b.evs ++ [Event.publish i c e]
      if dbF = some w then ⟨pre, recs0, c, e, w + 1, true, false⟩
      else if dbF = some (w + 1) then
        ⟨pre ++ [.saveRecords recs0], recs0, c, e, w + 2, true, false⟩
      else
        let pr := processarRegistro att mr
        let recs1 := setResult recs0 i pr.1
        let c' := if pr.1.success then c + 1 else c
        let e' := if pr.1.success then e else e + 1
        let mid := pre ++ [.saveRecords recs0, .updateSession i c e none]
          ++ attemptEvents i pr.2 ++ [Event.publish (i + 1) c' e']
        if dbF = some (w + 2) then ⟨mid, recs1, c', e', w + 3, true, false⟩
        else if dbF = some (w + 3) then
          ⟨mid ++ [.saveRecords recs1], recs1, c', e', w + 4, true, false⟩
        else
          ⟨mid ++ [.saveRecords recs1, .updateSession (i + 1) c' e' none],
            recs1, c', e', w + 4, false, true⟩

/-- Result of the loop (and of a whole run): emitted trace, in-memory records,
write-attempt count, and whether an exception propagated. -/
structure LoopRes where
  trace : List Event
  recs : List PolicyRecord
  w : Nat
  aborted : Bool
deriving DecidableEq

/-- The processing loop from index `i` with `fuel = records.length - i`
iterations remaining.  `att₂ i k` is the actor outcome of attempt `k` on
item `i`. -/
def procLoop (att₂ : Nat → Nat → Except String String) (mr : Int)
    (signal : Nat → BoundaryCtl) (dbF : Option Nat) :
    Nat → Nat → List PolicyRecord → Nat → Nat → Nat → LoopRes
  | 0, _, recs, _, _, w => ⟨[], recs, w, false⟩
  | fuel + 1, i, recs, c, e, w =>
      let s := iterStep (att₂ i) mr dbF (signal i) i recs c e w
      if s.next then
        let rest := procLoop att₂ mr signal dbF fuel (i + 1) s.recs s.c s.e s.w
        ⟨s.evs ++ rest.trace, rest.recs, rest.w, rest.aborted⟩
      else ⟨s.evs, s.recs, s.w, s.aborted⟩

/-- The pre-loop session setup (lines 487-510): a fresh service
(`existing = false`, the only case reachable through the HTTP handlers, which
construct a new `AutomacaoService` per run) creates the session row and saves
the initial records; a service that already holds a session id re-marks it
`running`.  Both paths are inside the try block, so a rejected write aborts.
The leading `publish` is the unconditional
`statusService.updateProgress(startIndex, 0, 0)` of line 485. -/
def sessInit (dbF : Option Nat) (records : List PolicyRecord) (startIndex : Nat)
    (existing : Bool) : LoopRes :=
  let startTr := [Event.publish startIndex 0 0]
  if existing then
    if dbF = some 0 then ⟨startTr, records, 1, true⟩
    else ⟨startTr ++ [.updateSession startIndex 0 0 (some .running)], records, 1, false⟩
  else
    if dbF = some 0 then ⟨startTr, records, 1, true⟩
    else if dbF = some 1 then ⟨startTr ++ [.createSession records], records, 2, true⟩
    else ⟨startTr ++ [.createSession records, .saveRecords records], records, 2, false⟩

/-- End of the run for a loop result `L` (lines 620-647): if the loop aborted,
the catch block persists `finishSession(sessionId, "error")` and rethrows;
otherwise the finalizer persists `finishSession(sessionId, "completed")` and
re-saves the records, whatever made the loop exit (normal exhaustion OR a
stop-induced `break`) — each of those two writes is itself uncaught, so its
rejection lands in the catch block as well.  The catch-block write's own
rejection is swallowed by its `.catch`; under the single-failure oracle the
failing write has already happened, so it is emitted unconditionally. -/
def finishWrap (dbF : Option Nat) (iniTr : List Event) (L : LoopRes) : LoopRes :=
  if L.aborted then
    ⟨iniTr ++ L.trace ++ [.finishSession .error], L.recs, L.w + 1, true⟩
  else if dbF = some L.w then
    ⟨iniTr ++ L.trace ++ [.finishSession .error], L.recs, L.w + 2, true⟩
  else if dbF = some (L.w + 1) then
    ⟨iniTr ++ L.trace ++ [.finishSession .completed, .finishSession .error],
      L.recs, L.w + 2, true⟩
  else
    ⟨iniTr ++ L.trace ++ [.finishSession .completed, .saveRecords L.recs],
      L.recs, L.w + 2, false⟩

/-- Source `AutomacaoService.processarRegistros(records, fileName, startIndex)` for a
run with a checkpoint store attached: session setup, pre-count of `cancelado`
and `erro` records before `startIndex`, the loop, and the finalizer
(`finishSession(sessionId, "completed")` then `saveRecords`) which runs
whenever the loop exits, including after a stop-induced `break`.  The catch
block persists `finishSession(sessionId, "error")` (its own rejection is
swallowed by its `.catch`; under the single-failure oracle the
failing write has already happened, so this write succeeds) and rethrows,
which surfaces as `aborted := true`.  Browser start and login are modelled as
succeeding; their failure path (`InitializationError`) is outside the claims
under study. -/
def processarRegistros (att₂ : Nat → Nat → Except String String) (mr : Int)
    (signal : Nat → BoundaryCtl) (dbF : Option Nat)
    (records : List PolicyRecord) (startIndex : Nat) (existing : Bool) : LoopRes :=
  let ini := sessInit dbF records startIndex existing
  if ini.aborted then
    ⟨ini.trace ++ [.finishSession .error], ini.recs, ini.w + 1, true⟩
  else
    let c0 := ((records.take startIndex).filter fun r => r.status == RecStatus.cancelado).length
    let e0 := ((records.take startIndex).filter fun r => r.status == RecStatus.erro).length
    finishWrap dbF ini.trace
      (procLoop att₂ mr signal dbF (records.length - startIndex) startIndex records c0 e0 ini.w)

/-! ### HTTP control surface (`index.ts`) -/

/-- Line 1507 / line 1278: the first record whose status is `pendente` or
`erro` (`records.findIndex(r => r.status === "pendente" || r.status === "erro")`). -/
def retomarStartIndex (recs : List PolicyRecord) : Option Nat :=
  recs.findIdx? fun r => r.status == RecStatus.pendente || r.status == RecStatus.erro

/-- Line 1516 / line 1257: the records kept for processing. -/
def recordsToProcess (recs : List PolicyRecord) : List PolicyRecord :=
  recs.filter fun r => r.status == RecStatus.pendente || r.status == RecStatus.erro

/-- Handler `POST /api/retomar/:id`, lines 1480-1553, run to completion: recompute the
start index over the session's full record list, reject when nothing is
pendente/erro, and hand the FILTERED list together with that index to
`processarRegistros` (line 1533).  Guards that do not touch the record data
(unknown id, already-running automation, `completed` session) are outside the
model. -/
def retomarRun (att₂ : Nat → Nat → Except String String) (mr : Int)
    (recs : List PolicyRecord) : Option LoopRes :=
  match retomarStartIndex recs with
  | none => none
  | some si =>
      some (processarRegistros att₂ mr (fun _ => .go) none (recordsToProcess recs) si false)

/-- Source `statusService.start()`: mark processing. -/
def startSt (st : ProcessStatus) : ProcessStatus :=
  { st with isProcessing := true, isPaused := false }

/-- Source `statusService.stop()`: clear the flags (progress and counters keep their
last published values). -/
def stopSt (st : ProcessStatus) : ProcessStatus :=
  { st with isProcessing := false, isPaused := false }

/-- The status reset performed when a run is handed its records. -/
def initStatus (total : Nat) : ProcessStatus :=
  { isProcessing := false, isPaused := false, currentIndex := 0, total := total,
    cancelados := 0, erros := 0, progress := 0 }

/-- Replay of one event on the publisher state: only `updateProgress` calls
change the published snapshot. -/
def statusStep (st : ProcessStatus) : Event → ProcessStatus
  | .publish i c e => st.updateProgress i c e
  | _ => st

/-- The publisher snapshot observers hold after the run's trace (the service
was reset to `records.length` items and started before the first publish). -/
def statusAfter (total : Nat) (tr : List Event) : ProcessStatus :=
  tr.foldl statusStep (startSt (initStatus total))

/-- Cross-request state of `index.ts` plus the service flag that guards
against concurrent runs. -/
structure SystemState where
  isRunning : Bool
  status : ProcessStatus
  db : SessionRow × List PolicyRecord
deriving DecidableEq

/-- Starting a run through the service: `processarRegistros` throws
`"Automação já está em execução"` synchronously when `isRunning` is already
set (line 476-478), before any state is touched; otherwise the run executes
and the final system state reflects its trace (the `finally` block clears
`isRunning` and stops the status service). -/
def executarRun (sys : SystemState) (att₂ : Nat → Nat → Except String String) (mr : Int)
    (signal : Nat → BoundaryCtl) (dbF : Option Nat)
    (records : List PolicyRecord) (startIndex : Nat) (existing : Bool) :
    SystemState × Except String Unit :=
  if sys.isRunning then (sys, Except.error "Automação já está em execução")
  else
    let out := processarRegistros att₂ mr signal dbF records startIndex existing
    (⟨false, stopSt (statusAfter records.length out.trace), runDb out.trace⟩,
      if out.aborted then Except.error "Erro na automação" else Except.ok ())

/-- Modelled from the spec: the percentage-complete field the spec describes,
`100 * processed / total` rounded (half-up), used only to compare against the
source's `roundPct`. -/
def specProgressPct (processed total : Nat) : Nat :=
  (200 * processed + total) / (2 * total)

/-! ### Concrete fixtures used by the counterexample and witness theorems -/

/-- An actor that succeeds on every attempt with message `"ok"`. -/
def attOk : Nat → Nat → Except String String := fun _ _ => Except.ok "ok"

/-- A pendente record. -/
def recP (a : String) : PolicyRecord := ⟨a, .pendente, ""⟩

/-- Signal: run normally, except that a stop request becomes visible at the
boundary of item `k` (and every later boundary). -/
def stopFrom (k : Nat) : Nat → BoundaryCtl := fun i => if k ≤ i then .stop else .go

/-- Signal: run normally, except that at the boundary of item `k` a pause is
observed and then a stop arrives while paused. -/
def pauseStopAt (k : Nat) : Nat → BoundaryCtl := fun i => if i = k then .pauseStop else .go

/-- Signal with no pause or stop requests. -/
def goSig : Nat → BoundaryCtl := fun _ => .go

/-- Apolices of the attempted items (one entry per attempt), resolved against
the record list the loop was given. -/
def attemptedApolices (procList : List PolicyRecord) (tr : List Event) : List String :=
  (attemptedItems tr).filterMap fun i => (procList.get? i).map (·.apolice)

/-- A resumed session: item A finished (`cancelado`), item B failed (`erro`),
items C and D still `pendente` — the spec's `[done, failed, pending, pending]`
shape. -/
def demo4 : List PolicyRecord :=
  [⟨"A", .cancelado, ""⟩, ⟨"B", .erro, "x"⟩, recP "C", recP "D"]

/-- One-item run, everything succeeding. -/
def c2run : LoopRes := processarRegistros attOk 2 goSig none [recP "A"] 0 false

/-- Record A after a successful cancellation. -/
def recADone : PolicyRecord := ⟨"A", .cancelado, "ok"⟩

/-- Three-item run with a stop request arriving after item 0 completes and
before item 1 starts. -/
def c3run : LoopRes :=
  processarRegistros attOk 2 (stopFrom 1) none [recP "A", recP "B", recP "C"] 0 false

/-- Two-item run: item 0 succeeds, then a pause is observed at the boundary of
item 1 and a stop arrives while paused. -/
def c4run : LoopRes :=
  processarRegistros attOk 2 (pauseStopAt 1) none [recP "A", recP "B"] 0 false

/-- Two-item run where the 4th checkpoint write attempt (the `saveRecords`
directly after item 0 completes) rejects. -/
def c6run : LoopRes :=
  processarRegistros attOk 2 goSig (some 4) [recP "A", recP "B"] 0 false

/-- Four-item run, everything succeeding. -/
def c8run : LoopRes :=
  processarRegistros attOk 2 goSig none [recP "A", recP "B", recP "C", recP "D"] 0 false

/-- Actor outcomes: attempt 1 fails with `"e1"`, attempt 2 succeeds with
`"ok2"`. -/
def attFS : Nat → Except String String :=
  fun k => if k = 1 then Except.error "e1" else Except.ok "ok2"

/-- Error message of each failing attempt. -/
def errsC5 : Nat → String := fun k => if k = 1 then "e1" else "e2"

/-- Actor outcomes: every attempt fails with `errsC5`. -/
def attFF : Nat → Except String String := fun k => Except.error (errsC5 k)

/-- A record being processed. -/
def recW : PolicyRecord := recP "W"

/-- A system state with an active run and non-trivial counters. -/
def busySys : SystemState :=
  ⟨true, (initStatus 3).updateProgress 1 1 0, (initialRow, [recP "A"])⟩

/-! ### Retry controller lemmas -/

/-- If attempts `a, …, k-1` fail and attempt `k` succeeds with message `m`
(within the budget), the attempt loop returns success with `m` after exactly
`k` attempts. -/
theorem runAttempts_firstOk (att : Nat → Except String String) (m : String) :
    ∀ rem a k lastE, a ≤ k → k < a + rem →
      (∀ j, a ≤ j → j < k → ∃ er, att j = Except.error er) →
      att k = Except.ok m →
      runAttempts att a rem lastE = ({ success := true, message := m }, k) := by
  intro rem
  induction rem with
  | zero => intro a k lastE h1 h2 _ _; omega
  | succ r ih =>
    intro a k lastE h1 h2 h3 h4
    rcases Nat.eq_or_lt_of_le h1 with heq | hlt
    · subst heq
      simp [runAttempts, h4]
    · obtain ⟨er, her⟩ := h3 a (Nat.le_refl a) hlt
      simp only [runAttempts, her]
      exact ih (a + 1) k (some er) hlt (by omega) (fun j hj1 hj2 => h3 j (by omega) hj2) h4

/-- If every attempt in the window fails, the loop returns failure carrying
the LAST attempt's error message, after the full budget of attempts. -/
theorem runAttempts_allFail (att : Nat → Except String String) (errs : Nat → String) :
    ∀ rem a lastE, 1 ≤ rem →
      (∀ j, a ≤ j → j < a + rem → att j = Except.error (errs j)) →
      runAttempts att a rem lastE =
        ({ success := false, message := errs (a + rem - 1) }, a + rem - 1) := by
  intro rem
  induction rem with
  | zero => intro a lastE h _; omega
  | succ r ih =>
    intro a lastE _ hall
    have ha : att a = Except.error (errs a) := hall a (Nat.le_refl a) (by omega)
    rcases Nat.eq_zero_or_pos r with hr | hr
    · subst hr
      simp [runAttempts, ha]
    · simp only [runAttempts, ha]
      have e1 : a + 1 + r - 1 = a + r := by omega
      have e2 : a + (r + 1) - 1 = a + r := by omega
      rw [ih (a + 1) (some (errs a)) hr (fun j hj1 hj2 => hall j (by omega) (by omega)),
        e1, e2]

/-- C5: for `maxRetries = n ≥ 1`, the first successful attempt `k ≤ n` makes
`processarRegistro` return success with that attempt's message after exactly
`k` attempts, and the item is then written `cancelado` with the message as its
note; if all `n` attempts fail, it returns failure with exactly the `n`-th
attempt's error message after `n` attempts, and the item is written `erro`
with that message as its note. -/
theorem C5_retry_semantics (att : Nat → Except String String) (mr : Int) (r : PolicyRecord)
    (m : String) (errs : Nat → String) :
    (∀ k, 1 ≤ k → k ≤ mr.toNat →
      (∀ j, 1 ≤ j → j < k → att j = Except.error (errs j)) →
      att k = Except.ok m →
      processarRegistro att mr = ({ success := true, message := m }, k) ∧
      (applyResult r { success := true, message := m }).status = RecStatus.cancelado ∧
      (applyResult r { success := true, message := m }).observacao = m) ∧
    (1 ≤ mr.toNat →
      (∀ j, 1 ≤ j → j ≤ mr.toNat → att j = Except.error (errs j)) →
      processarRegistro att mr = ({ success := false, message := errs mr.toNat }, mr.toNat) ∧
      (applyResult r { success := false, message := errs mr.toNat }).status = RecStatus.erro ∧
      (applyResult r { success := false, message := errs mr.toNat }).observacao
        = errs mr.toNat) := by
  constructor
  · intro k hk1 hk2 hfail hok
    refine ⟨?_, by simp [applyResult], by simp [applyResult]⟩
    unfold processarRegistro
    exact runAttempts_firstOk att m mr.toNat 1 k none hk1 (by omega)
      (fun j h1 h2 => ⟨errs j, hfail j h1 h2⟩) hok
  · intro h1 hall
    refine ⟨?_, by simp [applyResult], by simp [applyResult]⟩
    unfold processarRegistro
    have h := runAttempts_allFail att errs mr.toNat 1 none h1
      (fun j hj1 hj2 => hall j hj1 (by omega))
    have e : 1 + mr.toNat - 1 = mr.toNat := by omega
    rw [h, e]

/-- Witness for C5 at `maxRetries = 2`: fail-then-succeed ends `cancelado`
with the success message; fail-fail ends `erro` with the second attempt's
message. -/
theorem C5_retry_semantics_witness :
    (processarRegistro attFS 2 = ({ success := true, message := "ok2" }, 2) ∧
      (applyResult recW { success := true, message := "ok2" }).status = RecStatus.cancelado ∧
      (applyResult recW { success := true, message := "ok2" }).observacao = "ok2") ∧
    (processarRegistro attFF 2 = ({ success := false, message := "e2" }, 2) ∧
      (applyResult recW { success := false, message := "e2" }).status = RecStatus.erro ∧
      (applyResult recW { success := false, message := "e2" }).observacao = "e2") := by
  constructor
  · exact (C5_retry_semantics attFS 2 recW "ok2" errsC5).1 2 (by decide) (by decide)
      (fun j h1 h2 => by
        have hj : j = 1 := by omega
        subst hj
        rfl)
      rfl
  · have h := (C5_retry_semantics attFF 2 recW "m" errsC5).2 (by decide)
      (fun j _ _ => rfl)
    simpa [errsC5] using h

/-- C10: with `maxRetries ≤ 0` the attempt loop body never runs (zero
attempts) and `processarRegistro` returns the fixed fallback failure
`"Erro desconhecido"`. -/
theorem C10_zero_attempts (att : Nat → Except String String) (mr : Int) (h : mr ≤ 0) :
    processarRegistro att mr = ({ success := false, message := "Erro desconhecido" }, 0) := by
  unfold processarRegistro
  rw [Int.toNat_of_nonpos h]
  rfl

/-- Witness for C10 at `maxRetries = -3` with an actor that would succeed. -/
theorem C10_zero_attempts_witness :
    (-3 : Int) ≤ 0 ∧
      processarRegistro (fun _ => Except.ok "m") (-3) =
        ({ success := false, message := "Erro desconhecido" }, 0) :=
  ⟨by decide, C10_zero_attempts (fun _ => Except.ok "m") (-3) (by decide)⟩

/-! ### Log buffer lemmas -/

/-- One `addLog` call on a buffer within capacity is a prepend-then-truncate. -/
theorem addLog_eq_take (ini : List LogEntry) (l : LogEntry) :
    addLog ini l = (l :: ini).take 100 := by
  unfold addLog
  by_cases h1 : (l :: ini).length > 100
  · simp [h1]
  · simp only [h1, if_false]
    exact (List.take_of_length_le (by omega)).symm

/-- Folding `addLog` over a sequence of entries keeps the most recent 100,
newest first. -/
theorem foldl_addLog_eq (entries : List LogEntry) :
    ∀ ini : List LogEntry, ini.length ≤ 100 →
      entries.foldl addLog ini = (entries.reverse ++ ini).take 100 := by
  induction entries with
  | nil => intro ini h; simpa using (List.take_of_length_le h).symm
  | cons a tl ih =>
    intro ini h
    rw [List.foldl_cons, addLog_eq_take ini a,
      ih ((a :: ini).take 100) (by simp [List.length_take])]
    rw [List.reverse_cons, List.append_assoc, List.singleton_append]
    have hm : (100 - tl.reverse.length) ⊓ 100 = 100 - tl.reverse.length := by
      simp [Nat.sub_le]
    rw [List.take_append_eq_append_take, List.take_append_eq_append_take, List.take_take, hm]

/-- C9: after any sequence of `addLog` calls on a fresh buffer, `getLogs`
holds at most 100 entries, and exactly the most recently added ones (newest
first). -/
theorem C9_log_buffer (entries : List LogEntry) :
    (getLogs (entries.foldl addLog [])).length ≤ 100 ∧
      getLogs (entries.foldl addLog []) = entries.reverse.take 100 := by
  have h := foldl_addLog_eq entries [] (by simp)
  simp only [List.append_nil] at h
  refine ⟨?_, h⟩
  rw [getLogs, h]
  simp [List.length_take]

/-! ### Progress percentage -/

/-- C8 (amended): the published percentage is
`round(100 * (currentIndex + 1) / total)`, not `round(100 * processed / total)`;
when a full run's final snapshot is published (`index = total`), the
percentage strictly exceeds 100 for any total up to 200. -/
theorem C8_amended_progress (st : ProcessStatus) (i c e : Nat)
    (h : 0 < st.total) (h200 : st.total ≤ 200) :
    (st.updateProgress i c e).progress = specProgressPct (i + 1) st.total ∧
      (i = st.total → 100 < (st.updateProgress i c e).progress) := by
  constructor
  · simp [ProcessStatus.updateProgress, h, roundPct, specProgressPct]
  · intro hi
    subst hi
    simp only [ProcessStatus.updateProgress, if_pos h]
    unfold roundPct
    have h2 : 0 < 2 * st.total := by omega
    have h3 : 101 ≤ (200 * (st.total + 1) + st.total) / (2 * st.total) := by
      rw [Nat.le_div_iff_mul_le h2]
      omega
    omega

/-- Counterexample to C8 as stated: in a completed 4-item run the final
published snapshot has `progress = 125`, while `round(100 * processed /
total) = 100`; in particular the published percentage exceeds 100. -/
theorem C8_counterexample :
    (statusAfter 4 c8run.trace).currentIndex = 4 ∧
    (statusAfter 4 c8run.trace).cancelados = 4 ∧
    (statusAfter 4 c8run.trace).total = 4 ∧
    (statusAfter 4 c8run.trace).progress = 125 ∧
    specProgressPct 4 4 = 100 ∧
    100 < (statusAfter 4 c8run.trace).progress := by decide

/-- Witness for the amended C8 at `total = 4`, final snapshot. -/
theorem C8_amended_progress_witness :
    0 < (initStatus 4).total ∧ (initStatus 4).total ≤ 200 ∧
      (((initStatus 4).updateProgress 4 4 0).progress
          = specProgressPct (4 + 1) (initStatus 4).total ∧
        (4 = (initStatus 4).total → 100 < ((initStatus 4).updateProgress 4 4 0).progress)) :=
  ⟨by decide, by decide, C8_amended_progress (initStatus 4) 4 4 0 (by decide) (by decide)⟩

/-! ### Start-while-running conflict -/

/-- C7: starting while a run is active is rejected synchronously with the
conflict error and returns the system state unchanged — counters, item
statuses and the in-memory snapshot are exactly as before. -/
theorem C7_conflict_rejected (sys : SystemState) (att₂ : Nat → Nat → Except String String)
    (mr : Int) (signal : Nat → BoundaryCtl) (dbF : Option Nat)
    (records : List PolicyRecord) (startIndex : Nat) (existing : Bool)
    (h : sys.isRunning = true) :
    executarRun sys att₂ mr signal dbF records startIndex existing =
      (sys, Except.error "Automação já está em execução") := by
  simp [executarRun, h]

/-- Witness for C7: a busy system state rejects a new start unchanged. -/
theorem C7_conflict_rejected_witness :
    busySys.isRunning = true ∧
      executarRun busySys attOk 2 goSig none [recP "B"] 0 false =
        (busySys, Except.error "Automação já está em execução") :=
  ⟨rfl, C7_conflict_rejected busySys attOk 2 goSig none [recP "B"] 0 false rfl⟩

/-! ### Resume, stop and counter evaluations at the failing inputs -/

/-- C1 fails on the code: resuming the session `[cancelado A, erro B,
pendente C, pendente D]` computes start index 1 (record B, the first
pendente/erro item) over the full list, but the loop receives the filtered
list `[B, C, D]` together with that index, so the items actually attempted
are C and D — record B, the first unfinished item, is never attempted. -/
theorem C1_resume_skips_first_unfinished :
    retomarStartIndex demo4 = some 1 ∧
    demo4.get? 1 = some ⟨"B", RecStatus.erro, "x"⟩ ∧
    (retomarRun attOk 2 demo4).map
        (fun o => attemptedApolices (recordsToProcess demo4) o.trace)
      = some ["C", "D"] ∧
    "B" ∉ (["C", "D"] : List String) := by decide

/-- Counterexample to C2 as stated: in a one-item run the final status
publish for item 0 (`publish 1 1 0`, trace position 7) happens strictly
before both checkpoint writes recording item 0's final status and counters
(`saveRecords` of the cancelled record and `updateSession 1 1 0`), which
appear only after position 7. -/
theorem C2_counterexample :
    Event.publish 1 1 0 ∈ c2run.trace ∧
    Event.updateSession 1 1 0 none ∈ c2run.trace ∧
    Event.saveRecords [recADone] ∈ c2run.trace ∧
    c2run.trace.get? 7 = some (Event.publish 1 1 0) ∧
    (c2run.trace.take 8).all
      (fun ev => !(ev == Event.updateSession 1 1 0 none)
        && !(ev == Event.saveRecords [recADone])) := by decide

/-- C3 fails on the code: a stop between item 0 and item 1 halts the loop
(only item 0 attempted, later items stay `pendente`), and `stop()` writes
`finishSession "stopped"` — but the loop's finalizer then writes
`finishSession "completed"`, so the session's last persisted status is
`completed`, not `stopped`. -/
theorem C3_stop_overwritten_by_completed :
    Event.finishSession SessStatus.stopped ∈ c3run.trace ∧
    (runDb c3run.trace).1.status = SessStatus.completed ∧
    SessStatus.completed ≠ SessStatus.stopped ∧
    attemptedItems c3run.trace = [0] ∧
    (runDb c3run.trace).2.drop 1 = [recP "B", recP "C"] := by decide

/-- C4 fails on the code: after item 0 succeeds the checkpoints carry
`(processed, canceled, errors) = (1, 1, 0)`, but `stop()` while paused writes
`updateSessionProgress(sessionId, 0, 0, 0, "paused")`: the 5th checkpoint
write resets processed from 1 back to 0, so the counters are not
monotonically non-decreasing. -/
theorem C4_counters_reset_by_stop :
    checkpointCounters c4run.trace
      = [(0, 0, 0), (0, 0, 0), (1, 1, 0), (1, 1, 0), (0, 0, 0)] ∧
    (checkpointCounters c4run.trace).get? 3 = some (1, 1, 0) ∧
    (checkpointCounters c4run.trace).get? 4 = some (0, 0, 0) ∧
    ¬ (1 : Nat) ≤ 0 := by decide

/-- Counterexample to C6 as stated: when the checkpoint write directly after
item 0 rejects, the run does NOT continue to item 1 — it aborts, the session
is finished with status `error`, and only item 0 was ever attempted. -/
theorem C6_counterexample :
    c6run.aborted = true ∧
    attemptedItems c6run.trace = [0] ∧
    c6run.trace.getLast? = some (Event.finishSession SessStatus.error) ∧
    (runDb c6run.trace).1.status = SessStatus.error := by decide

/-! ### Publish/persist ordering: general lemmas -/

/-- A sublist of the right part is a sublist of an append. -/
theorem sublist_append_right_of {α : Type} (l : List α) {s r : List α} (h : s.Sublist r) :
    s.Sublist (l ++ r) :=
  h.trans (List.sublist_append_right l r)

/-- A sublist of the left part is a sublist of an append. -/
theorem sublist_append_left_of {α : Type} (r : List α) {s l : List α} (h : s.Sublist l) :
    s.Sublist (l ++ r) :=
  h.trans (List.sublist_append_left l r)

/-- A sublist survives one extra leading element. -/
theorem sublist_cons_of {α : Type} (a : α) {s r : List α} (h : s.Sublist r) :
    s.Sublist (a :: r) :=
  List.Sublist.cons a h

/-- The pair `[p, k]` is a sublist of `p :: s :: k :: rest`. -/
theorem pair_sublist_cons3 {α : Type} (p s k : α) (rest : List α) :
    [p, k].Sublist (p :: s :: k :: rest) :=
  List.Sublist.cons₂ p (List.Sublist.cons s (List.Sublist.cons₂ k (List.nil_sublist rest)))

/-- Boundary handling never emits a loop checkpoint (an `updateSession` with
no explicit status): its writes all carry `some` status. -/
theorem boundaryStep_no_loopCkpt (dbF : Option Nat) (ctl : BoundaryCtl) (i c e : Nat)
    (recs : List PolicyRecord) (w : Nat) (j c₁ e₁ : Nat) :
    Event.updateSession j c₁ e₁ none ∉ (boundaryStep dbF ctl i c e recs w).evs := by
  cases ctl <;> simp only [boundaryStep] <;> (try split_ifs) <;> simp

/-- Attempt markers are never checkpoints. -/
theorem attemptEvents_no_loopCkpt (i n j c₁ e₁ : Nat) :
    Event.updateSession j c₁ e₁ none ∉ attemptEvents i n := by
  simp [attemptEvents]

/-- Session setup never emits a loop checkpoint. -/
theorem sessInit_no_loopCkpt (dbF : Option Nat) (records : List PolicyRecord)
    (startIndex : Nat) (existing : Bool) (j c₁ e₁ : Nat) :
    Event.updateSession j c₁ e₁ none ∉ (sessInit dbF records startIndex existing).trace := by
  unfold sessInit
  split_ifs <;> simp

/-- Within one loop iteration, every checkpoint `updateSession j c₁ e₁`
(status-less, i.e. a loop progress write) is preceded by the publish of the
very same index and counters. -/
theorem iterStep_publish_first (att : Nat → Except String String) (mr : Int)
    (dbF : Option Nat) (ctl : BoundaryCtl) (i : Nat) (recs : List PolicyRecord)
    (c e w : Nat) (j c₁ e₁ : Nat)
    (h : Event.updateSession j c₁ e₁ none ∈ (iterStep att mr dbF ctl i recs c e w).evs) :
    [Event.publish j c₁ e₁, Event.updateSession j c₁ e₁ none].Sublist
      (iterStep att mr dbF ctl i recs c e w).evs := by
  have hb := boundaryStep_no_loopCkpt dbF ctl i c e recs w j c₁ e₁
  have ha := attemptEvents_no_loopCkpt i (processarRegistro att mr).2 j c₁ e₁
  simp only [iterStep] at h ⊢
  by_cases h1 : (boundaryStep dbF ctl i c e recs w).act = BAct.abort
  · rw [if_pos h1] at h ⊢
    exact absurd h hb
  · rw [if_neg h1] at h ⊢
    by_cases h2 : (boundaryStep dbF ctl i c e recs w).act = BAct.brk
    · rw [if_pos h2] at h ⊢
      exact absurd h hb
    · rw [if_neg h2] at h ⊢
      by_cases h3 : dbF = some (boundaryStep dbF ctl i c e recs w).w
      · rw [if_pos h3] at h ⊢
        simp only [List.mem_append, List.mem_cons, List.not_mem_nil, or_false] at h
        rcases h with h | h
        · exact absurd h hb
        · exact Event.noConfusion h
      · rw [if_neg h3] at h ⊢
        by_cases h4 : dbF = some ((boundaryStep dbF ctl i c e recs w).w + 1)
        · rw [if_pos h4] at h ⊢
          simp only [List.mem_append, List.mem_cons, List.not_mem_nil, or_false] at h
          rcases h with (h | h) | h
          · exact absurd h hb
          · exact Event.noConfusion h
          · exact Event.noConfusion h
        · rw [if_neg h4] at h ⊢
          by_cases h5 : dbF = some ((boundaryStep dbF ctl i c e recs w).w + 2)
          · rw [if_pos h5] at h ⊢
            simp only [List.mem_append, List.mem_cons, List.not_mem_nil, or_false] at h
            rcases h with (((h | h) | h | h) | h) | h
            · exact absurd h hb
            · exact Event.noConfusion h
            · exact Event.noConfusion h
            · injection h with hj hc he hst
              subst hj; subst hc; subst he
              simp only [List.append_assoc, List.cons_append, List.singleton_append,
                List.nil_append]
              exact sublist_append_right_of _ (pair_sublist_cons3 _ _ _ _)
            · exact absurd h ha
            · exact Event.noConfusion h
          · rw [if_neg h5] at h ⊢
            by_cases h6 : dbF = some ((boundaryStep dbF ctl i c e recs w).w + 3)
            · rw [if_pos h6] at h ⊢
              simp only [List.mem_append, List.mem_cons, List.not_mem_nil, or_false] at h
              rcases h with ((((h | h) | h | h) | h) | h) | h
              · exact absurd h hb
              · exact Event.noConfusion h
              · exact Event.noConfusion h
              · injection h with hj hc he hst
                subst hj; subst hc; subst he
                simp only [List.append_assoc, List.cons_append, List.singleton_append,
                  List.nil_append]
                exact sublist_append_right_of _ (pair_sublist_cons3 _ _ _ _)
              · exact absurd h ha
              · exact Event.noConfusion h
              · exact Event.noConfusion h
            · rw [if_neg h6] at h ⊢
              simp only [List.mem_append, List.mem_cons, List.not_mem_nil, or_false] at h
              rcases h with ((((h | h) | h | h) | h) | h) | h | h
              · exact absurd h hb
              · exact Event.noConfusion h
              · exact Event.noConfusion h
              · injection h with hj hc he hst
                subst hj; subst hc; subst he
                simp only [List.append_assoc, List.cons_append, List.singleton_append,
                  List.nil_append]
                exact sublist_append_right_of _ (pair_sublist_cons3 _ _ _ _)
              · exact absurd h ha
              · exact Event.noConfusion h
              · exact Event.noConfusion h
              · injection h with hj hc he hst
                subst hj; subst hc; subst he
                simp only [List.append_assoc, List.cons_append, List.singleton_append,
                  List.nil_append]
                exact sublist_append_right_of _ (sublist_cons_of _ (sublist_cons_of _
                  (sublist_cons_of _ (sublist_append_right_of _
                    (pair_sublist_cons3 _ _ _ _)))))

/-- Over the whole loop, every loop checkpoint is preceded by the matching
publish. -/
theorem procLoop_publish_first (att₂ : Nat → Nat → Except String String) (mr : Int)
    (signal : Nat → BoundaryCtl) (dbF : Option Nat) :
    ∀ fuel i recs c e w j c₁ e₁,
      Event.updateSession j c₁ e₁ none
          ∈ (procLoop att₂ mr signal dbF fuel i recs c e w).trace →
      [Event.publish j c₁ e₁, Event.updateSession j c₁ e₁ none].Sublist
        (procLoop att₂ mr signal dbF fuel i recs c e w).trace := by
  intro fuel
  induction fuel with
  | zero => intro i recs c e w j c₁ e₁ h; simp [procLoop] at h
  | succ f ih =>
    intro i recs c e w j c₁ e₁ h
    simp only [procLoop] at h ⊢
    by_cases hn : (iterStep (att₂ i) mr dbF (signal i) i recs c e w).next = true
    · rw [if_pos hn] at h ⊢
      rcases List.mem_append.mp h with h1 | h2
      · exact sublist_append_left_of _ (iterStep_publish_first _ _ _ _ _ _ _ _ _ _ _ _ h1)
      · exact sublist_append_right_of _ (ih _ _ _ _ _ _ _ _ h2)
    · rw [if_neg hn] at h ⊢
      exact iterStep_publish_first _ _ _ _ _ _ _ _ _ _ _ _ h

/-- The finalizer/catch wrapper preserves the publish-before-checkpoint
property (its own events are never loop checkpoints). -/
theorem finishWrap_publish_first (dbF : Option Nat) (iniTr : List Event) (L : LoopRes)
    (j c₁ e₁ : Nat)
    (hini : Event.updateSession j c₁ e₁ none ∉ iniTr)
    (hL : Event.updateSession j c₁ e₁ none ∈ L.trace →
      [Event.publish j c₁ e₁, Event.updateSession j c₁ e₁ none].Sublist L.trace)
    (h : Event.updateSession j c₁ e₁ none ∈ (finishWrap dbF iniTr L).trace) :
    [Event.publish j c₁ e₁, Event.updateSession j c₁ e₁ none].Sublist
      (finishWrap dbF iniTr L).trace := by
  unfold finishWrap at h ⊢
  split_ifs at h ⊢
  · simp only [List.mem_append, List.mem_cons, List.not_mem_nil, or_false] at h
    rcases h with (h | h) | h
    · exact absurd h hini
    · exact sublist_append_left_of _ (sublist_append_right_of _ (hL h))
    · exact Event.noConfusion h
  · simp only [List.mem_append, List.mem_cons, List.not_mem_nil, or_false] at h
    rcases h with (h | h) | h
    · exact absurd h hini
    · exact sublist_append_left_of _ (sublist_append_right_of _ (hL h))
    · exact Event.noConfusion h
  · simp only [List.mem_append, List.mem_cons, List.not_mem_nil, or_false] at h
    rcases h with (h | h) | h | h
    · exact absurd h hini
    · exact sublist_append_left_of _ (sublist_append_right_of _ (hL h))
    · exact Event.noConfusion h
    · exact Event.noConfusion h
  · simp only [List.mem_append, List.mem_cons, List.not_mem_nil, or_false] at h
    rcases h with (h | h) | h | h
    · exact absurd h hini
    · exact sublist_append_left_of _ (sublist_append_right_of _ (hL h))
    · exact Event.noConfusion h
    · exact Event.noConfusion h

/-- C2 (amended): the order is publish-then-persist, the reverse of the
claim.  Every checkpoint write of the loop recording index `j` with counters
`(c₁, e₁)` is preceded in the run's trace by the status publish of exactly
that index and those counters. -/
theorem C2_amended_publish_first (att₂ : Nat → Nat → Except String String) (mr : Int)
    (signal : Nat → BoundaryCtl) (dbF : Option Nat) (records : List PolicyRecord)
    (startIndex : Nat) (existing : Bool) (j c₁ e₁ : Nat)
    (h : Event.updateSession j c₁ e₁ none
        ∈ (processarRegistros att₂ mr signal dbF records startIndex existing).trace) :
    [Event.publish j c₁ e₁, Event.updateSession j c₁ e₁ none].Sublist
      (processarRegistros att₂ mr signal dbF records startIndex existing).trace := by
  have hini := sessInit_no_loopCkpt dbF records startIndex existing j c₁ e₁
  simp only [processarRegistros] at h ⊢
  by_cases h1 : (sessInit dbF records startIndex existing).aborted = true
  · rw [if_pos h1] at h ⊢
    simp only [List.mem_append, List.mem_cons, List.not_mem_nil, or_false] at h
    rcases h with h | h
    · exact absurd h hini
    · exact Event.noConfusion h
  · rw [if_neg h1] at h ⊢
    exact finishWrap_publish_first _ _ _ _ _ _ hini
      (procLoop_publish_first att₂ mr signal dbF _ _ _ _ _ _ j c₁ e₁) h

/-- Witness for the amended C2: the one-item run contains the checkpoint
`updateSession 1 1 0`, and the matching publish precedes it. -/
theorem C2_amended_publish_first_witness :
    Event.updateSession 1 1 0 none ∈ c2run.trace ∧
      [Event.publish 1 1 0, Event.updateSession 1 1 0 none].Sublist c2run.trace :=
  ⟨by decide,
    C2_amended_publish_first attOk 2 goSig none [recP "A"] 0 false 1 1 0 (by decide)⟩

/-! ### Abort semantics of a failed checkpoint write -/

/-- Folding a trace that ends in a `finishSession` write leaves the session
in that status. -/
theorem runDb_append_finish (t : List Event) (s : SessStatus) :
    (runDb (t ++ [Event.finishSession s])).1.status = s := by
  unfold runDb
  rw [List.foldl_append]
  rfl

/-- A trace whose last two events are some write and then a `finishSession`
leaves the session in that final status. -/
theorem trace_ends_finish2 (t : List Event) (a : Event) (s : SessStatus) :
    (t ++ [a, Event.finishSession s]).getLast? = some (Event.finishSession s) ∧
      (runDb (t ++ [a, Event.finishSession s])).1.status = s := by
  have he : t ++ [a, Event.finishSession s] = (t ++ [a]) ++ [Event.finishSession s] := by
    simp
  rw [he]
  exact ⟨List.getLast?_concat _, runDb_append_finish _ _⟩

/-- C6 (amended): a rejected mid-run checkpoint write is NOT swallowed: the
run aborts (the exception propagates to the caller), and the catch block
leaves the session persisted with terminal status `error` as the last write
of the trace. -/
theorem C6_amended_abort (att₂ : Nat → Nat → Except String String) (mr : Int)
    (signal : Nat → BoundaryCtl) (dbF : Option Nat) (records : List PolicyRecord)
    (startIndex : Nat) (existing : Bool)
    (h : (processarRegistros att₂ mr signal dbF records startIndex existing).aborted = true) :
    (processarRegistros att₂ mr signal dbF records startIndex existing).trace.getLast?
        = some (Event.finishSession SessStatus.error) ∧
      (runDb (processarRegistros att₂ mr signal dbF records startIndex existing).trace).1.status
        = SessStatus.error := by
  simp only [processarRegistros] at h ⊢
  by_cases h1 : (sessInit dbF records startIndex existing).aborted = true
  · rw [if_pos h1] at h ⊢
    exact ⟨List.getLast?_concat _, runDb_append_finish _ _⟩
  · rw [if_neg h1] at h ⊢
    unfold finishWrap at h ⊢
    split_ifs at h ⊢
    · exact ⟨List.getLast?_concat _, runDb_append_finish _ _⟩
    · exact ⟨List.getLast?_concat _, runDb_append_finish _ _⟩
    · exact trace_ends_finish2 _ _ _

/-- Witness for the amended C6: the concrete aborted run ends with the
`error` finish write and the persisted status is `error`. -/
theorem C6_amended_abort_witness :
    c6run.aborted = true ∧
      (c6run.trace.getLast? = some (Event.finishSession SessStatus.error) ∧
        (runDb c6run.trace).1.status = SessStatus.error) :=
  ⟨by decide, C6_amended_abort attOk 2 goSig (some 4) [recP "A", recP "B"] 0 false (by decide)⟩

end PortoCancel
